import Mathlib

/-
Verification of the chidb B-tree storage engine (src/libchidb/btree.c).

The development is a shallow embedding of btree.c into Lean.  Pages are
modelled as functions from byte index to byte value (Nat → Nat); every
write stores a value already reduced modulo 256, mirroring uint8_t
buffers.  Multi-byte stores and loads are big endian, as specified for
the binary primitives of util.c (which is not part of src/ and is
therefore modelled from the spec).  The numeric error codes of chidbInt.h
are abstracted into the inductive type RC; only their identities matter
to the claims.
-/

namespace ChidbBtree

/-- Return codes of the engine (spec section 7; chidbInt.h is not in src/,
so the codes are modelled from the spec as an inductive type). -/
inductive RC where
  | OK
  | ECORRUPTHEADER
  | EPAGENO
  | ECELLNO
  | ENOTFOUND
  | EDUPLICATE
  | EEMPTY
  | ENOMEM
  | EIO
deriving DecidableEq

/-- Resource events of the search loop: loading a page through the pager
and releasing it.  Used to state that every load is paired with a
release. -/
inductive Ev where
  | load (npage : Nat)
  | free (npage : Nat)
deriving DecidableEq

/-! ## Byte buffers -/

/-- Pages are byte buffers indexed by Nat.  Writing a single byte. -/
def setByte (p : Nat → Nat) (i b : Nat) : Nat → Nat :=
  fun j => if j = i then b else p j

/-- Write a list of bytes at consecutive offsets starting at off. -/
def writeList (p : Nat → Nat) (off : Nat) : List Nat → (Nat → Nat)
  | [] => p
  | b :: rest => writeList (setByte p off b) (off + 1) rest

/-- Big-endian byte pair of a 16-bit value.  Modelled from the spec:
util.c stores 16-bit integers big endian (spec 4.A). -/
def bytes2 (v : Nat) : List Nat := [v / 256 % 256, v % 256]

/-- Big-endian bytes of a 32-bit value.  Modelled from the spec:
util.c stores 32-bit integers big endian (spec 4.A). -/
def bytes4 (v : Nat) : List Nat :=
  [v / 16777216 % 256, v / 65536 % 256, v / 256 % 256, v % 256]

/-- Modelled from the spec: chidb varints use the 7-bit continuation
encoding with the high bit set on all but the last byte, and are stored
in a fixed four-byte form (the cell layouts in btree.c place the field
following a varint exactly four bytes later). -/
def varintBytes (v : Nat) : List Nat :=
  [v / 2097152 % 128 + 128, v / 16384 % 128 + 128, v / 128 % 128 + 128, v % 128]

/-- put2byte of util.c (modelled from the spec: big-endian 16-bit store). -/
def put2byte (p : Nat → Nat) (off v : Nat) : Nat → Nat :=
  writeList p off (bytes2 v)

/-- put4byte of util.c (modelled from the spec: big-endian 32-bit store). -/
def put4byte (p : Nat → Nat) (off v : Nat) : Nat → Nat :=
  writeList p off (bytes4 v)

/-- get2byte of util.c (modelled from the spec: big-endian 16-bit load). -/
def get2byte (p : Nat → Nat) (off : Nat) : Nat :=
  p off * 256 + p (off + 1)

/-- get4byte of util.c (modelled from the spec: big-endian 32-bit load). -/
def get4byte (p : Nat → Nat) (off : Nat) : Nat :=
  p off * 16777216 + p (off + 1) * 65536 + p (off + 2) * 256 + p (off + 3)

/-- getVarint32 of util.c (modelled from the spec: reads the four-byte
varint form, taking the low seven bits of each byte). -/
def getVarint32 (p : Nat → Nat) (off : Nat) : Nat :=
  p off % 128 * 2097152 + p (off + 1) % 128 * 16384 + p (off + 2) % 128 * 128
    + p (off + 3) % 128

/-! ## Page layout constants

The PGTYPE_ codes and the header/cell offsets come from btree.h, which
is not in src/; they are modelled from the spec (sections 3 and 4.B:
node header fields tag 1B, reserved 1B, free_offset 2B, n_cells 2B,
cells_offset 2B, right_page 4B; internal header length 12, leaf header
length 8; cell layouts of section 3) and are consistent with the FLAG
masks and the pgtypeMap table ordering in btree.c. -/

def PGTYPE_INDEX_INTERNAL : Nat := 2
def PGTYPE_TABLE_INTERNAL : Nat := 5
def PGTYPE_INDEX_LEAF : Nat := 10
def PGTYPE_TABLE_LEAF : Nat := 13

/-- getHeaderOffset of btree.c: the node header of page 1 sits after the
100-byte file header. -/
def getHeaderOffset (npage : Nat) : Nat :=
  if npage ≠ 1 then 0 else 100

/-- pgtypeMap of btree.c: right-shift the page type code by 2. -/
def pgtypeMap (t : Nat) : Nat := t >>> 2

/-- getCellOffsetOffset of btree.c: table lookup by pgtypeMap t >>> 1;
INTPG_CELLSOFFSET_OFFSET = 12, LEAFPG_CELLSOFFSET_OFFSET = 8. -/
def getCellOffsetOffset (t : Nat) : Nat :=
  [12, 8].getD (pgtypeMap t >>> 1) 0

/-! ## Cells -/

/-- BTreeCell of btree.h: a tagged cell.  The C struct keeps a type tag,
a key, and a union of variant fields; the constructors carry the fields
of the variant that matches the tag. -/
inductive BTreeCell where
  | tableInternal (key child_page : Nat)
  | tableLeaf (key data_size : Nat) (data : List Nat)
  | indexInternal (key keyPk child_page : Nat)
  | indexLeaf (key keyPk : Nat)
deriving DecidableEq

instance : Inhabited BTreeCell := ⟨BTreeCell.indexLeaf 0 0⟩

/-- The type tag of a cell (the .type field of the C struct, which the
code always sets to the matching PGTYPE code). -/
def cellType : BTreeCell → Nat
  | .tableInternal _ _ => PGTYPE_TABLE_INTERNAL
  | .tableLeaf _ _ _ => PGTYPE_TABLE_LEAF
  | .indexInternal _ _ _ => PGTYPE_INDEX_INTERNAL
  | .indexLeaf _ _ => PGTYPE_INDEX_LEAF

/-- The key field of a cell. -/
def cellKey : BTreeCell → Nat
  | .tableInternal k _ => k
  | .tableLeaf k _ _ => k
  | .indexInternal k _ _ => k
  | .indexLeaf k _ => k

/-- The first 32-bit slot of the fields union of BTreeCell.  In btree.h
all four variant structs start with a 32-bit member at union offset 0
(tableInternal.child_page, tableLeaf.data_size, indexInternal.keyPk,
indexLeaf.keyPk), so reading any of those members through the union
yields this value regardless of which variant was stored. -/
def unionFirst : BTreeCell → Nat
  | .tableInternal _ child => child
  | .tableLeaf _ sz _ => sz
  | .indexInternal _ pk _ => pk
  | .indexLeaf _ pk => pk

/-- getCellSize of btree.c.  The base size comes from a table indexed by
pgtypeMap (INDEXINTCELL_SIZE = 12, TABLEINTCELL_SIZE = 8,
INDEXLEAFCELL_SIZE = 8, TABLELEAFCELL_SIZE_WITHOUTDATA = 8).  The code
then tests type AND (FLAG_LEAF OR FLAG_TABLE) = type AND 13 and, when
nonzero, adds fields.tableLeaf.data_size — a read of the first union
slot, whatever variant the cell is. -/
def getCellSize (c : BTreeCell) : Nat :=
  let size := [12, 8, 8, 8].getD (pgtypeMap (cellType c)) 0
  if cellType c &&& 13 ≠ 0 then size + unionFirst c else size

/-- The byte string unpackBTC of btree.c serialises for a cell.  The C
code writes the fields with put4byte/putVarint32/memmove at the fixed
offsets of each variant (child 0 and key 4 for table-internal; size 0,
key 4, data 8 for table-leaf; child 0, keyIdx 4, keyPk 8 for
index-internal; keyIdx 0, keyPk 4 for index-leaf), which is exactly this
contiguous block starting at the cell head.  For a table-leaf cell the C
code copies data_size bytes from the payload pointer; cells whose data
list has that length are the well-formed ones. -/
def cellBytes : BTreeCell → List Nat
  | .tableInternal key child => bytes4 child ++ varintBytes key
  | .tableLeaf key sz data => varintBytes sz ++ varintBytes key ++ data
  | .indexInternal key pk child => bytes4 child ++ bytes4 key ++ bytes4 pk
  | .indexLeaf key pk => bytes4 key ++ bytes4 pk

/-- unpackBTC of btree.c: serialise a cell into the buffer at off. -/
def unpackBTC (p : Nat → Nat) (off : Nat) (c : BTreeCell) : Nat → Nat :=
  writeList p off (cellBytes c)

/-! ## Nodes -/

/-- BTreeNode of btree.h: the in-memory view of one page.  The C struct
holds a pointer to the MemPage (pageData and npage here), the header
fields, and a pointer to the cell offset array; the latter always points
at pageData + getHeaderOffset npage + getCellOffsetOffset type, which is
recomputed here instead of stored. -/
structure BTreeNode where
  pageData : Nat → Nat
  npage : Nat
  type : Nat
  free_offset : Nat
  n_cells : Nat
  cells_offset : Nat
  right_page : Nat

/-- Position of the cell offset array inside the page (what the
celloffset_array pointer of the C struct points at). -/
def arrayBase (btn : BTreeNode) : Nat :=
  getHeaderOffset btn.npage + getCellOffsetOffset btn.type

/-- The k-th entry of the cell offset array: a 2-byte big-endian page
offset. -/
def entryAt (btn : BTreeNode) (k : Nat) : Nat :=
  get2byte btn.pageData (arrayBase btn + 2 * k)

/-- packBTN of btree.c: project a raw page into a node view.  For leaf
nodes the C code leaves right_page unassigned (its own comment specifies
0 for leaves, and no code path reads it); the model uses 0. -/
def packBTN (page : Nat → Nat) (npage : Nat) : BTreeNode :=
  let hdr := getHeaderOffset npage
  let t := page (hdr + 0)
  { pageData := page
    npage := npage
    type := t
    free_offset := get2byte page (hdr + 2)
    n_cells := get2byte page (hdr + 4)
    cells_offset := get2byte page (hdr + 6)
    right_page := if t &&& 8 ≠ 0 then 0 else get4byte page (hdr + 8) }

/-- The bytes chidb_Btree_writeNode stores into the page header: tag,
reserved zero byte, free_offset, n_cells, cells_offset (each 2-byte big
endian via put2byte), and right_page (put4byte) only when the node is
not a leaf.  The C code writes them field by field at offsets 0, 1, 2,
4, 6, 8 from the header start, which is this contiguous block. -/
def nodeHeaderBytes (btn : BTreeNode) : List Nat :=
  [btn.type % 256, 0] ++ bytes2 btn.free_offset ++ bytes2 btn.n_cells
    ++ bytes2 btn.cells_offset
    ++ (if btn.type &&& 8 ≠ 0 then [] else bytes4 btn.right_page)

/-- chidb_Btree_writeNode of btree.c, restricted to its effect on the
page bytes (the pager write itself is the identity on content). -/
def writeNodeBytes (btn : BTreeNode) : Nat → Nat :=
  writeList btn.pageData (getHeaderOffset btn.npage) (nodeHeaderBytes btn)

/-- The node view chidb_Btree_initEmptyNode constructs before storing
it: n_cells 0, cells_offset = page size, free_offset just past the node
header, right_page 0, on a zero page fresh from the pager. -/
def initEmptyBtn (npage typ pageSize : Nat) : BTreeNode :=
  { pageData := fun _ => 0
    npage := npage
    type := typ
    free_offset := getHeaderOffset npage + getCellOffsetOffset typ
    n_cells := 0
    cells_offset := pageSize
    right_page := 0 }

/-! ## Cell insertion -/

/-- memmove on the byte buffer: the destination range takes the source
bytes (computed from the original buffer, as memmove copies safely). -/
def memmoveF (p : Nat → Nat) (dst src len : Nat) : Nat → Nat :=
  fun j => if dst ≤ j ∧ j < dst + len then p (src + (j - dst)) else p j

/-- Subtraction as it lands in the uint16_t cells_offset field:
the mathematical difference reduced modulo 2^16. -/
def sub16 (a b : Nat) : Nat :=
  (a % 65536 + (65536 - b % 65536)) % 65536

/-- The page content after the writes of chidb_Btree_insertCell:
serialise the cell at the decremented cells_offset (unpackBTC), shift
the offset array entries [ncell, n_cells) one slot up when ncell is not
at the end (memmove), then store the new cell offset at entry ncell
(put2byte). -/
def insertCellPage (btn : BTreeNode) (ncell : Nat) (cell : BTreeCell) : Nat → Nat :=
  let cell_offset := sub16 btn.cells_offset (getCellSize cell)
  let p1 := unpackBTC btn.pageData cell_offset cell
  let p2 := if ncell < btn.n_cells then
      memmoveF p1 (arrayBase btn + 2 * (ncell + 1)) (arrayBase btn + 2 * ncell)
        (2 * (btn.n_cells - ncell))
    else p1
  put2byte p2 (arrayBase btn + 2 * ncell) cell_offset

/-- The node chidb_Btree_insertCell returns on success: page updated,
n_cells incremented, cells_offset decremented by getCellSize, and
free_offset grown by the new offset array entry (all field updates
reduced modulo 2^16, the width of the uint16_t struct fields). -/
def insertCellNode (btn : BTreeNode) (ncell : Nat) (cell : BTreeCell) : BTreeNode :=
  { btn with
    pageData := insertCellPage btn ncell cell
    free_offset := (btn.free_offset + 2) % 65536
    n_cells := (btn.n_cells + 1) % 65536
    cells_offset := sub16 btn.cells_offset (getCellSize cell) }

/-- chidb_Btree_insertCell of btree.c. -/
def chidb_Btree_insertCell (btn : BTreeNode) (ncell : Nat) (cell : BTreeCell) :
    RC × BTreeNode :=
  if ncell > btn.n_cells then (RC.ECELLNO, btn)
  else (RC.OK, insertCellNode btn ncell cell)

/-! ## File header verification -/

/-- The magic comparison of verifyHeader:
strncmp(buf, "SQLite format 3", 16) = 0.  The literal has 15 characters
and a terminating zero, so the comparison succeeds exactly when bytes
0..14 are the characters and byte 15 is zero (strncmp stops at the
matching NUL). -/
def magicB (buf : Nat → Nat) : Bool :=
  buf 0 == 83 && buf 1 == 81 && buf 2 == 76 && buf 3 == 105 && buf 4 == 116
    && buf 5 == 101 && buf 6 == 32 && buf 7 == 102 && buf 8 == 111
    && buf 9 == 114 && buf 10 == 109 && buf 11 == 97 && buf 12 == 116
    && buf 13 == 32 && buf 14 == 51 && buf 15 == 0

/-- The invalid_header condition of verifyHeader in btree.c, term by
term in source order (the checks of offsets 24, 40 and 60 are commented
out in the source and so absent here). -/
def invalidHeaderB (buf : Nat → Nat) : Bool :=
  !(magicB buf) || buf 18 != 1 || buf 19 != 1 || buf 20 != 0 || buf 21 != 64
    || buf 22 != 32 || buf 23 != 32
    || get4byte buf 32 != 0 || get4byte buf 36 != 0
    || get4byte buf 44 != 1 || get4byte buf 48 != 20000
    || get4byte buf 52 != 0 || get4byte buf 56 != 1 || get4byte buf 64 != 0

/-- verifyHeader of btree.c. -/
def verifyHeader (buf : Nat → Nat) : RC :=
  if invalidHeaderB buf then RC.ECORRUPTHEADER else RC.OK

/-- Transcription of the claim: every required header field matches the
canonical values (magic with terminating zero, bytes 18 and 19 equal 1,
byte 20 zero, byte 21 equal 64, bytes 22 and 23 equal 32, and the
big-endian words at 32, 36, 52, 64 zero, at 44 and 56 one, at 48 equal
20000). -/
def specHeaderOk (buf : Nat → Nat) : Prop :=
  buf 0 = 83 ∧ buf 1 = 81 ∧ buf 2 = 76 ∧ buf 3 = 105 ∧ buf 4 = 116
    ∧ buf 5 = 101 ∧ buf 6 = 32 ∧ buf 7 = 102 ∧ buf 8 = 111
    ∧ buf 9 = 114 ∧ buf 10 = 109 ∧ buf 11 = 97 ∧ buf 12 = 116
    ∧ buf 13 = 32 ∧ buf 14 = 51 ∧ buf 15 = 0
    ∧ buf 18 = 1 ∧ buf 19 = 1 ∧ buf 20 = 0 ∧ buf 21 = 64
    ∧ buf 22 = 32 ∧ buf 23 = 32
    ∧ get4byte buf 32 = 0 ∧ get4byte buf 36 = 0
    ∧ get4byte buf 44 = 1 ∧ get4byte buf 48 = 20000
    ∧ get4byte buf 52 = 0 ∧ get4byte buf 56 = 1 ∧ get4byte buf 64 = 0

instance (buf : Nat → Nat) : Decidable (specHeaderOk buf) := by
  unfold specHeaderOk; infer_instance

/-! ## Opening a B-tree file -/

/-- The file header writes chidb_Btree_open performs on page 1 of a
fresh database, in source order: strncpy of the magic (15 characters
plus one zero pad to 16 bytes), the default page size 1024 at offset 16,
the fixed single bytes 18..23, and the put4byte stores at offsets 24,
32, 36, 40, 44, 48, 52, 56, 60, 64. -/
def applyFileHeader (p : Nat → Nat) : Nat → Nat :=
  let p := writeList p 0 [83, 81, 76, 105, 116, 101, 32, 102, 111, 114, 109,
                          97, 116, 32, 51, 0]
  let p := put2byte p 16 1024
  let p := setByte p 18 1
  let p := setByte p 19 1
  let p := setByte p 20 0
  let p := setByte p 21 64
  let p := setByte p 22 32
  let p := setByte p 23 32
  let p := put4byte p 24 0
  let p := put4byte p 32 0
  let p := put4byte p 36 0
  let p := put4byte p 40 0
  let p := put4byte p 44 1
  let p := put4byte p 48 20000
  let p := put4byte p 52 0
  let p := put4byte p 56 1
  let p := put4byte p 60 0
  let p := put4byte p 64 0
  p

/-- Page 1 of a freshly created database: chidb_Btree_newNode allocates
page 1 and chidb_Btree_initEmptyNode stores an empty TABLE_LEAF node on
it (free_offset 100 + 8, cells_offset 1024), then chidb_Btree_open
writes the file header into the same page. -/
def openPage1 : Nat → Nat :=
  applyFileHeader (writeNodeBytes (initEmptyBtn 1 PGTYPE_TABLE_LEAF 1024))

/-- chidb_Btree_open of btree.c, on the raw bytes of the database file.
chidb_Pager_readHeader fails exactly when the file holds fewer than 100
bytes (spec 6.1); on that path open builds the one-page default file.
Otherwise it verifies the header and, on success, reads the page size
from bytes 16-17.  The result is the return code, the file bytes after
the call, and the pager page size that was configured (0 when open
failed before configuring it). -/
def chidb_Btree_open (file : List Nat) : RC × List Nat × Nat :=
  if file.length < 100 then
    (RC.OK, (List.range 1024).map openPage1, 1024)
  else if verifyHeader (fun i => file.getD i 0) = RC.OK then
    (RC.OK, file, get2byte (fun i => file.getD i 0) 16)
  else
    (RC.ECORRUPTHEADER, file, 0)

/-! ## Search -/

/-- The database as the pager exposes it to the node layer: one byte
buffer per page, numbered from 1. -/
def readPage (db : List (Nat → Nat)) (npage : Nat) : Option (Nat → Nat) :=
  if 1 ≤ npage ∧ npage ≤ db.length then some (db.getD (npage - 1) (fun _ => 0))
  else none

/-- chidb_Btree_getCell of btree.c, the parsing part: decode the cell at
page offset off according to the node type.  For a table-leaf cell the C
code records a pointer to the payload and its parsed length; the model
extracts those data_size bytes.  An unrecognised type falls through the
C switch leaving the fields unset; the model returns none there (no
reachable state has such a type). -/
def parseCell (page : Nat → Nat) (typ off : Nat) : Option BTreeCell :=
  if typ = PGTYPE_TABLE_INTERNAL then
    some (.tableInternal (getVarint32 page (off + 4)) (get4byte page (off + 0)))
  else if typ = PGTYPE_TABLE_LEAF then
    let sz := getVarint32 page (off + 0)
    some (.tableLeaf (getVarint32 page (off + 4)) sz
      ((List.range sz).map (fun i => page (off + 8 + i))))
  else if typ = PGTYPE_INDEX_INTERNAL then
    some (.indexInternal (get4byte page (off + 4)) (get4byte page (off + 8))
      (get4byte page (off + 0)))
  else if typ = PGTYPE_INDEX_LEAF then
    some (.indexLeaf (get4byte page (off + 0)) (get4byte page (off + 4)))
  else none

/-- nodeBTCArray of btree.c, the array-building part: read every cell of
the node in offset-array order.  The zero-cell early return (which the
code reports as CHIDB_ENOTFOUND, despite its comment naming EEMPTY) is
handled at the call site in the search loop. -/
def nodeBTCArr (btn : BTreeNode) : Option (List BTreeCell) :=
  (List.range btn.n_cells).mapM
    (fun i => parseCell btn.pageData btn.type (entryAt btn i))

/-- nodeKeyBSearch of btree.c: binary search over the keys.  Returns
(found, position); when not found the position is the left boundary,
the insertion index.  The C loop terminates because the interval
shrinks; the fuel is an upper bound on its iterations. -/
def bsearchGo (keys : List Nat) (key : Nat) : Nat → Int → Int → Bool × Nat
  | 0, left, _ => (false, left.toNat)
  | fuel + 1, left, right =>
    if left ≤ right then
      let mid := left + (right - left) / 2
      let mkey := keys.getD mid.toNat 0
      if mkey < key then bsearchGo keys key fuel (mid + 1) right
      else if key < mkey then bsearchGo keys key fuel left (mid - 1)
      else (true, mid.toNat)
    else (false, left.toNat)

/-- nodeKeyBSearch of btree.c, entry point: left = 0, right = n - 1. -/
def nodeKeyBSearch (keys : List Nat) (key : Nat) : Bool × Nat :=
  bsearchGo keys key (keys.length + 1) 0 ((keys.length : Int) - 1)

/-- cellRecordCpy of btree.c: copy the payload of a table-leaf cell and
report its size (fields.tableLeaf of the union; the function is only
reached on table-leaf cells). -/
def cellRecordCpy : BTreeCell → List Nat × Nat
  | .tableLeaf _ sz data => (data, sz)
  | _ => ([], 0)

/-- Read of fields.indexLeaf.keyPk — the first union slot. -/
def fieldsIndexLeafKeyPk (c : BTreeCell) : Nat := unionFirst c

/-- Read of fields.indexInternal.keyPk — the first union slot. -/
def fieldsIndexInternalKeyPk (c : BTreeCell) : Nat := unionFirst c

/-- Read of fields.tableInternal.child_page — the first union slot. -/
def fieldsTableInternalChild (c : BTreeCell) : Nat := unionFirst c

/-- Read of fields.indexInternal.child_page (the second union slot;
only index-internal cells reach this read). -/
def fieldsIndexInternalChild : BTreeCell → Nat
  | .indexInternal _ _ child => child
  | _ => 0

/-- The while loop of chidb_Btree_find.  One iteration: load the node
(its page), build the cell array, compute the table/leaf/index flags
from the type bits, binary-search the key, then branch exactly as the
source: table-leaf match copies the record out; an index match replaces
the key by the keyPk of the matched cell and restarts from nroot (the
root the call started with); an internal miss descends into the child at
the insertion position, or right_page past the last cell; a leaf miss is
NOT_FOUND.  The loaded node is released at the bottom of the loop or,
after a break, before returning.  The event list records loads and
releases; none is the out-of-fuel marker (the C loop can run forever,
for instance when an index restart rediscovers the same cell). -/
def findLoop (db : List (Nat → Nat)) (nroot : Nat) :
    Nat → Nat → Nat → List Ev → Option (RC × Option (List Nat × Nat) × List Ev)
  | 0, _, _, _ => none
  | fuel + 1, npage, key, log =>
    match readPage db npage with
    | none => some (RC.EPAGENO, none, log)
    | some page =>
      let btn := packBTN page npage
      let log := log ++ [Ev.load npage]
      if btn.n_cells = 0 then
        some (RC.ENOTFOUND, none, log ++ [Ev.free npage])
      else
        match nodeBTCArr btn with
        | none => none
        | some cells =>
          let fTable := btn.type &&& 5 != 0
          let fLeaf := btn.type &&& 8 != 0
          let fIndex := btn.type &&& 2 != 0
          let br := nodeKeyBSearch (cells.map cellKey) key
          if br.1 && fLeaf && fTable then
            some (RC.OK, some (cellRecordCpy (cells.getD br.2 default)),
              log ++ [Ev.free npage])
          else if br.1 && fIndex then
            let key2 := if fLeaf then fieldsIndexLeafKeyPk (cells.getD br.2 default)
                        else fieldsIndexInternalKeyPk (cells.getD br.2 default)
            findLoop db nroot fuel nroot key2 (log ++ [Ev.free npage])
          else if !fLeaf then
            let child :=
              if br.2 = btn.n_cells then btn.right_page
              else if fTable then fieldsTableInternalChild (cells.getD br.2 default)
              else fieldsIndexInternalChild (cells.getD br.2 default)
            findLoop db nroot fuel child key (log ++ [Ev.free npage])
          else
            some (RC.ENOTFOUND, none, log ++ [Ev.free npage])

/-- chidb_Btree_find of btree.c: descend from nroot looking for key. -/
def chidb_Btree_find (db : List (Nat → Nat)) (nroot key fuel : Nat) :
    Option (RC × Option (List Nat × Nat) × List Ev) :=
  findLoop db nroot fuel nroot key []

/-! ## Insertion entry points -/

/-- chidb_Btree_insert of btree.c.  The body in the source is the bare
statement return CHIDB_OK — the function performs no work and modifies
no page. -/
def chidb_Btree_insert (db : List (Nat → Nat)) (_nroot : Nat) (_btc : BTreeCell) :
    RC × List (Nat → Nat) :=
  (RC.OK, db)

/-- chidb_Btree_insertInTable of btree.c: wrap key, data and size into a
table-leaf cell and hand it to chidb_Btree_insert. -/
def chidb_Btree_insertInTable (db : List (Nat → Nat)) (nroot key : Nat)
    (data : List Nat) (size : Nat) : RC × List (Nat → Nat) :=
  chidb_Btree_insert db nroot (.tableLeaf key size data)

/-! ## Concrete databases used as test inputs -/

/-- The bytes of the 10-byte payload "Hard Drive". -/
def hardDrive : List Nat := [72, 97, 114, 100, 32, 68, 114, 105, 118, 101]

/-- Successful cell insertion, for building nodes (all uses below stay
within bounds and in range). -/
def insOk (btn : BTreeNode) (ncell : Nat) (cell : BTreeCell) : BTreeNode :=
  (chidb_Btree_insertCell btn ncell cell).2

/-- A page-1 table leaf holding key 1 with the payload "Hard Drive":
what a working insert would have produced on the fresh database, built
with the cell-insertion and node-store operations of the source. -/
def pageTableKey1 : Nat → Nat :=
  writeNodeBytes
    (insOk (initEmptyBtn 1 PGTYPE_TABLE_LEAF 1024) 0 (.tableLeaf 1 10 hardDrive))

/-- Database file containing only that table: root page 1. -/
def dbWithKey1 : List (Nat → Nat) := [pageTableKey1]

/-- A page-1 table leaf holding keys 10, 20, 30 with two-byte payloads
AA, BB, CC. -/
def pageTable3 : Nat → Nat :=
  writeNodeBytes
    (insOk
      (insOk
        (insOk (initEmptyBtn 1 PGTYPE_TABLE_LEAF 1024) 0 (.tableLeaf 10 2 [65, 65]))
        1 (.tableLeaf 20 2 [66, 66]))
      2 (.tableLeaf 30 2 [67, 67]))

/-- A page-2 index leaf holding (keyIdx 30, keyPk 10), (50, 20),
(70, 30). -/
def pageIndex3 : Nat → Nat :=
  writeNodeBytes
    (insOk
      (insOk
        (insOk (initEmptyBtn 2 PGTYPE_INDEX_LEAF 1024) 0 (.indexLeaf 30 10))
        1 (.indexLeaf 50 20))
      2 (.indexLeaf 70 30))

/-- Database for the index-lookup scenario: table tree rooted at page 1,
index tree rooted at page 2. -/
def dbTableIndex : List (Nat → Nat) := [pageTable3, pageIndex3]

/-- The bytes of a freshly created database file with the first byte of
the magic flipped (83 becomes 84). -/
def flippedMagicFile : List Nat := ((List.range 1024).map openPage1).set 0 84

/-! ## Buffer lemmas -/

theorem setByte_at (p : Nat → Nat) (i b : Nat) : setByte p i b i = b := by
  simp [setByte]

theorem setByte_away (p : Nat → Nat) (i b j : Nat) (h : j ≠ i) :
    setByte p i b j = p j := by
  simp [setByte, h]

theorem writeList_away : ∀ (bs : List Nat) (p : Nat → Nat) (off j : Nat),
    j < off ∨ off + bs.length ≤ j → writeList p off bs j = p j
  | [], _, _, _, _ => rfl
  | b :: bs, p, off, j, h => by
    have hl : (b :: bs).length = bs.length + 1 := by simp
    rw [hl] at h
    rw [writeList, writeList_away bs _ _ _ (by omega)]
    exact setByte_away _ _ _ _ (by omega)

theorem writeList_at : ∀ (bs : List Nat) (p : Nat → Nat) (off i : Nat),
    i < bs.length → writeList p off bs (off + i) = bs.getD i 0
  | [], _, _, i, h => absurd h (by simp)
  | b :: bs, p, off, 0, _ => by
    rw [writeList, writeList_away bs _ _ _ (Or.inl (by omega))]
    simpa using setByte_at p off b
  | b :: bs, p, off, i + 1, h => by
    rw [writeList, show off + (i + 1) = (off + 1) + i from by omega,
      writeList_at bs _ _ i (by simp at h; omega)]
    rfl

theorem memmoveF_in (p : Nat → Nat) (dst src len j : Nat)
    (h1 : dst ≤ j) (h2 : j < dst + len) :
    memmoveF p dst src len j = p (src + (j - dst)) := by
  simp [memmoveF, h1, h2]

theorem memmoveF_away (p : Nat → Nat) (dst src len j : Nat)
    (h : j < dst ∨ dst + len ≤ j) :
    memmoveF p dst src len j = p j := by
  unfold memmoveF
  rw [if_neg (by omega)]

theorem sub16_small (a b : Nat) (h1 : b ≤ a) (h2 : a < 65536) :
    sub16 a b = a - b := by
  unfold sub16
  omega

theorem put2byte_get2byte (p : Nat → Nat) (off v : Nat) (hv : v < 65536) :
    get2byte (put2byte p off v) off = v := by
  have h0 : put2byte p off v off = (bytes2 v).getD 0 0 :=
    writeList_at (bytes2 v) p off 0 (by simp [bytes2])
  have h1 : put2byte p off v (off + 1) = (bytes2 v).getD 1 0 :=
    writeList_at (bytes2 v) p off 1 (by simp [bytes2])
  rw [get2byte, h0, h1]
  simp only [bytes2, List.getD_cons_succ, List.getD_cons_zero]
  omega

/-! ## Node store/load round trip (claim C9) -/

theorem writeNode_read_leaf (p : Nat → Nat) (np t fo nc co rp : Nat)
    (h8 : t &&& 8 ≠ 0) (ht : t < 256) (hf : fo < 65536) (hn : nc < 65536)
    (hc : co < 65536) :
    (packBTN (writeNodeBytes ⟨p, np, t, fo, nc, co, rp⟩) np).type = t ∧
    (packBTN (writeNodeBytes ⟨p, np, t, fo, nc, co, rp⟩) np).free_offset = fo ∧
    (packBTN (writeNodeBytes ⟨p, np, t, fo, nc, co, rp⟩) np).n_cells = nc ∧
    (packBTN (writeNodeBytes ⟨p, np, t, fo, nc, co, rp⟩) np).cells_offset = co ∧
    writeNodeBytes ⟨p, np, t, fo, nc, co, rp⟩ (getHeaderOffset np + 1) = 0 := by
  have hP : writeNodeBytes ⟨p, np, t, fo, nc, co, rp⟩ =
      writeList p (getHeaderOffset np) [t % 256, 0, fo / 256 % 256, fo % 256,
        nc / 256 % 256, nc % 256, co / 256 % 256, co % 256] := by
    rw [writeNodeBytes]
    simp [nodeHeaderBytes, bytes2, h8]
  have r : ∀ i, i < 8 → writeNodeBytes ⟨p, np, t, fo, nc, co, rp⟩
      (getHeaderOffset np + i) =
      [t % 256, 0, fo / 256 % 256, fo % 256, nc / 256 % 256, nc % 256,
       co / 256 % 256, co % 256].getD i 0 := by
    intro i hi
    rw [hP, writeList_at _ _ _ _ (by simpa using hi)]
  refine ⟨?_, ?_, ?_, ?_, ?_⟩
  · show writeNodeBytes _ (getHeaderOffset np + 0) = t
    rw [r 0 (by omega)]
    simpa using Nat.mod_eq_of_lt ht
  · show get2byte (writeNodeBytes _) (getHeaderOffset np + 2) = fo
    rw [get2byte, show getHeaderOffset np + 2 + 1 = getHeaderOffset np + 3 from by omega,
      r 2 (by omega), r 3 (by omega)]
    simp only [List.getD_cons_succ, List.getD_cons_zero]
    omega
  · show get2byte (writeNodeBytes _) (getHeaderOffset np + 4) = nc
    rw [get2byte, show getHeaderOffset np + 4 + 1 = getHeaderOffset np + 5 from by omega,
      r 4 (by omega), r 5 (by omega)]
    simp only [List.getD_cons_succ, List.getD_cons_zero]
    omega
  · show get2byte (writeNodeBytes _) (getHeaderOffset np + 6) = co
    rw [get2byte, show getHeaderOffset np + 6 + 1 = getHeaderOffset np + 7 from by omega,
      r 6 (by omega), r 7 (by omega)]
    simp only [List.getD_cons_succ, List.getD_cons_zero]
    omega
  · rw [r 1 (by omega)]
    rfl

theorem writeNode_read_internal (p : Nat → Nat) (np t fo nc co rp : Nat)
    (h8 : t &&& 8 = 0) (ht : t < 256) (hf : fo < 65536) (hn : nc < 65536)
    (hc : co < 65536) (hr : rp < 4294967296) :
    (packBTN (writeNodeBytes ⟨p, np, t, fo, nc, co, rp⟩) np).type = t ∧
    (packBTN (writeNodeBytes ⟨p, np, t, fo, nc, co, rp⟩) np).free_offset = fo ∧
    (packBTN (writeNodeBytes ⟨p, np, t, fo, nc, co, rp⟩) np).n_cells = nc ∧
    (packBTN (writeNodeBytes ⟨p, np, t, fo, nc, co, rp⟩) np).cells_offset = co ∧
    (packBTN (writeNodeBytes ⟨p, np, t, fo, nc, co, rp⟩) np).right_page = rp ∧
    writeNodeBytes ⟨p, np, t, fo, nc, co, rp⟩ (getHeaderOffset np + 1) = 0 := by
  have hP : writeNodeBytes ⟨p, np, t, fo, nc, co, rp⟩ =
      writeList p (getHeaderOffset np) [t % 256, 0, fo / 256 % 256, fo % 256,
        nc / 256 % 256, nc % 256, co / 256 % 256, co % 256,
        rp / 16777216 % 256, rp / 65536 % 256, rp / 256 % 256, rp % 256] := by
    rw [writeNodeBytes]
    simp [nodeHeaderBytes, bytes2, bytes4, h8]
  have r : ∀ i, i < 12 → writeNodeBytes ⟨p, np, t, fo, nc, co, rp⟩
      (getHeaderOffset np + i) =
      [t % 256, 0, fo / 256 % 256, fo % 256, nc / 256 % 256, nc % 256,
       co / 256 % 256, co % 256, rp / 16777216 % 256, rp / 65536 % 256,
       rp / 256 % 256, rp % 256].getD i 0 := by
    intro i hi
    rw [hP, writeList_at _ _ _ _ (by simpa using hi)]
  have rt : writeNodeBytes ⟨p, np, t, fo, nc, co, rp⟩ (getHeaderOffset np + 0) = t := by
    rw [r 0 (by omega)]
    simpa using Nat.mod_eq_of_lt ht
  refine ⟨rt, ?_, ?_, ?_, ?_, ?_⟩
  · show get2byte (writeNodeBytes _) (getHeaderOffset np + 2) = fo
    rw [get2byte, show getHeaderOffset np + 2 + 1 = getHeaderOffset np + 3 from by omega,
      r 2 (by omega), r 3 (by omega)]
    simp only [List.getD_cons_succ, List.getD_cons_zero]
    omega
  · show get2byte (writeNodeBytes _) (getHeaderOffset np + 4) = nc
    rw [get2byte, show getHeaderOffset np + 4 + 1 = getHeaderOffset np + 5 from by omega,
      r 4 (by omega), r 5 (by omega)]
    simp only [List.getD_cons_succ, List.getD_cons_zero]
    omega
  · show get2byte (writeNodeBytes _) (getHeaderOffset np + 6) = co
    rw [get2byte, show getHeaderOffset np + 6 + 1 = getHeaderOffset np + 7 from by omega,
      r 6 (by omega), r 7 (by omega)]
    simp only [List.getD_cons_succ, List.getD_cons_zero]
    omega
  · show (if (writeNodeBytes ⟨p, np, t, fo, nc, co, rp⟩ (getHeaderOffset np + 0)) &&& 8 ≠ 0
        then 0
        else get4byte (writeNodeBytes ⟨p, np, t, fo, nc, co, rp⟩) (getHeaderOffset np + 8)) = rp
    rw [rt, if_neg (by omega)]
    rw [get4byte,
      show getHeaderOffset np + 8 + 1 = getHeaderOffset np + 9 from by omega,
      show getHeaderOffset np + 8 + 2 = getHeaderOffset np + 10 from by omega,
      show getHeaderOffset np + 8 + 3 = getHeaderOffset np + 11 from by omega,
      r 8 (by omega), r 9 (by omega), r 10 (by omega), r 11 (by omega)]
    simp only [List.getD_cons_succ, List.getD_cons_zero]
    omega
  · rw [r 1 (by omega)]
    rfl

/-- C9: for every node variant and every page number, storing a node
with chidb_Btree_writeNode and re-reading the page with packBTN yields
the same type, free_offset, n_cells and cells_offset; right_page is
preserved for the internal variants (leaves do not store it); and the
reserved header byte is written as zero.  The bounds are the widths of
the uint8_t/uint16_t/uint32_t struct fields. -/
theorem writeNode_load_roundtrip (btn : BTreeNode)
    (ht : btn.type = PGTYPE_INDEX_INTERNAL ∨ btn.type = PGTYPE_TABLE_INTERNAL ∨
      btn.type = PGTYPE_INDEX_LEAF ∨ btn.type = PGTYPE_TABLE_LEAF)
    (hf : btn.free_offset < 65536) (hn : btn.n_cells < 65536)
    (hc : btn.cells_offset < 65536) (hr : btn.right_page < 4294967296) :
    (packBTN (writeNodeBytes btn) btn.npage).type = btn.type ∧
    (packBTN (writeNodeBytes btn) btn.npage).free_offset = btn.free_offset ∧
    (packBTN (writeNodeBytes btn) btn.npage).n_cells = btn.n_cells ∧
    (packBTN (writeNodeBytes btn) btn.npage).cells_offset = btn.cells_offset ∧
    (btn.type &&& 8 = 0 →
      (packBTN (writeNodeBytes btn) btn.npage).right_page = btn.right_page) ∧
    writeNodeBytes btn (getHeaderOffset btn.npage + 1) = 0 := by
  obtain ⟨p, np, t, fo, nc, co, rp⟩ := btn
  simp only at ht hf hn hc hr ⊢
  rcases ht with h | h | h | h <;> subst h
  · obtain ⟨a1, a2, a3, a4, a5, a6⟩ :=
      writeNode_read_internal p np PGTYPE_INDEX_INTERNAL fo nc co rp (by decide)
        (by decide) hf hn hc hr
    exact ⟨a1, a2, a3, a4, fun _ => a5, a6⟩
  · obtain ⟨a1, a2, a3, a4, a5, a6⟩ :=
      writeNode_read_internal p np PGTYPE_TABLE_INTERNAL fo nc co rp (by decide)
        (by decide) hf hn hc hr
    exact ⟨a1, a2, a3, a4, fun _ => a5, a6⟩
  · obtain ⟨a1, a2, a3, a4, a5⟩ :=
      writeNode_read_leaf p np PGTYPE_INDEX_LEAF fo nc co rp (by decide)
        (by decide) hf hn hc
    exact ⟨a1, a2, a3, a4, fun hx => absurd hx (by decide), a5⟩
  · obtain ⟨a1, a2, a3, a4, a5⟩ :=
      writeNode_read_leaf p np PGTYPE_TABLE_LEAF fo nc co rp (by decide)
        (by decide) hf hn hc
    exact ⟨a1, a2, a3, a4, fun hx => absurd hx (by decide), a5⟩

/-- Witness for C9: the round trip evaluated on a concrete
table-internal node stored on page 1. -/
theorem writeNode_load_roundtrip_witness :
    (packBTN (writeNodeBytes ⟨fun _ => 0, 1, 5, 12, 3, 900, 7⟩) 1).type = 5 ∧
    (packBTN (writeNodeBytes ⟨fun _ => 0, 1, 5, 12, 3, 900, 7⟩) 1).free_offset = 12 ∧
    (packBTN (writeNodeBytes ⟨fun _ => 0, 1, 5, 12, 3, 900, 7⟩) 1).n_cells = 3 ∧
    (packBTN (writeNodeBytes ⟨fun _ => 0, 1, 5, 12, 3, 900, 7⟩) 1).cells_offset = 900 ∧
    (packBTN (writeNodeBytes ⟨fun _ => 0, 1, 5, 12, 3, 900, 7⟩) 1).right_page = 7 ∧
    writeNodeBytes ⟨fun _ => 0, 1, 5, 12, 3, 900, 7⟩ 101 = 0 := by
  obtain ⟨a1, a2, a3, a4, a5, a6⟩ :=
    writeNode_load_roundtrip ⟨fun _ => 0, 1, 5, 12, 3, 900, 7⟩
      (by decide) (by decide) (by decide) (by decide) (by decide)
  exact ⟨a1, a2, a3, a4, a5 (by decide), a6⟩

/-! ## Cell insertion effects (claims C5 and C6) -/

theorem insertCell_partial (btn : BTreeNode) (k : Nat) (cell : BTreeCell)
    (hk : k ≤ btn.n_cells)
    (hco : btn.cells_offset < 65536)
    (hfo : btn.free_offset = arrayBase btn + 2 * btn.n_cells)
    (hfit : btn.free_offset + getCellSize cell + 2 ≤ btn.cells_offset) :
    (chidb_Btree_insertCell btn k cell).1 = RC.OK ∧
    (chidb_Btree_insertCell btn k cell).2.cells_offset
      = btn.cells_offset - getCellSize cell ∧
    (chidb_Btree_insertCell btn k cell).2.n_cells = btn.n_cells + 1 ∧
    (chidb_Btree_insertCell btn k cell).2.free_offset = btn.free_offset + 2 ∧
    entryAt (chidb_Btree_insertCell btn k cell).2 k
      = btn.cells_offset - getCellSize cell := by
  have heq : chidb_Btree_insertCell btn k cell = (RC.OK, insertCellNode btn k cell) := by
    unfold chidb_Btree_insertCell
    rw [if_neg (by omega)]
  have hsz : getCellSize cell ≤ btn.cells_offset := by omega
  have hsub : sub16 btn.cells_offset (getCellSize cell)
      = btn.cells_offset - getCellSize cell := sub16_small _ _ hsz hco
  refine ⟨by rw [heq], ?_, ?_, ?_, ?_⟩
  · rw [heq]
    simpa [insertCellNode] using hsub
  · rw [heq]
    simp only [insertCellNode]
    omega
  · rw [heq]
    simp only [insertCellNode]
    omega
  · rw [heq]
    have hbase : arrayBase (insertCellNode btn k cell) = arrayBase btn := rfl
    show get2byte (insertCellPage btn k cell)
      (arrayBase (insertCellNode btn k cell) + 2 * k) = _
    rw [hbase]
    show get2byte (put2byte _ (arrayBase btn + 2 * k)
      (sub16 btn.cells_offset (getCellSize cell))) (arrayBase btn + 2 * k) = _
    rw [put2byte_get2byte _ _ _ (by omega), hsub]

theorem insertCell_serialized (btn : BTreeNode) (k : Nat) (cell : BTreeCell)
    (hk : k ≤ btn.n_cells)
    (hco : btn.cells_offset < 65536)
    (hfo : btn.free_offset = arrayBase btn + 2 * btn.n_cells)
    (hfit : btn.free_offset + getCellSize cell + 2 ≤ btn.cells_offset) :
    ∀ i, i < (cellBytes cell).length →
      insertCellPage btn k cell (btn.cells_offset - getCellSize cell + i)
        = (cellBytes cell).getD i 0 := by
  intro i hi
  have hsz : getCellSize cell ≤ btn.cells_offset := by omega
  have hsub : sub16 btn.cells_offset (getCellSize cell)
      = btn.cells_offset - getCellSize cell := sub16_small _ _ hsz hco
  show put2byte (if k < btn.n_cells then
      memmoveF (unpackBTC btn.pageData (sub16 btn.cells_offset (getCellSize cell)) cell)
        (arrayBase btn + 2 * (k + 1)) (arrayBase btn + 2 * k) (2 * (btn.n_cells - k))
    else unpackBTC btn.pageData (sub16 btn.cells_offset (getCellSize cell)) cell)
    (arrayBase btn + 2 * k) (sub16 btn.cells_offset (getCellSize cell))
    (btn.cells_offset - getCellSize cell + i) = _
  rw [put2byte, writeList_away _ _ _ _ (Or.inr (by simp [bytes2]; omega))]
  have hcell : unpackBTC btn.pageData (sub16 btn.cells_offset (getCellSize cell)) cell
      (btn.cells_offset - getCellSize cell + i) = (cellBytes cell).getD i 0 := by
    rw [unpackBTC, hsub, writeList_at _ _ _ _ hi]
  by_cases hkn : k < btn.n_cells
  · rw [if_pos hkn, memmoveF_away _ _ _ _ _ (Or.inr (by omega))]
    exact hcell
  · rw [if_neg hkn]
    exact hcell

theorem insertCell_shift (btn : BTreeNode) (k : Nat) (cell : BTreeCell)
    (hco : btn.cells_offset < 65536)
    (hfo : btn.free_offset = arrayBase btn + 2 * btn.n_cells)
    (hfit : btn.free_offset + getCellSize cell + 2 ≤ btn.cells_offset) :
    ∀ i, i < btn.n_cells → k ≤ i →
      get2byte (insertCellPage btn k cell) (arrayBase btn + 2 * (i + 1))
        = entryAt btn i := by
  intro i hin hki
  have hkn : k < btn.n_cells := by omega
  have hsz : getCellSize cell ≤ btn.cells_offset := by omega
  have hsub : sub16 btn.cells_offset (getCellSize cell)
      = btn.cells_offset - getCellSize cell := sub16_small _ _ hsz hco
  have hread : ∀ t, t < 2 →
      insertCellPage btn k cell (arrayBase btn + 2 * (i + 1) + t)
        = btn.pageData (arrayBase btn + 2 * i + t) := by
    intro t ht2
    show put2byte (if k < btn.n_cells then
        memmoveF (unpackBTC btn.pageData (sub16 btn.cells_offset (getCellSize cell)) cell)
          (arrayBase btn + 2 * (k + 1)) (arrayBase btn + 2 * k) (2 * (btn.n_cells - k))
      else unpackBTC btn.pageData (sub16 btn.cells_offset (getCellSize cell)) cell)
      (arrayBase btn + 2 * k) (sub16 btn.cells_offset (getCellSize cell))
      (arrayBase btn + 2 * (i + 1) + t) = _
    rw [put2byte, writeList_away _ _ _ _ (Or.inr (by simp [bytes2]; omega))]
    rw [if_pos hkn]
    rw [memmoveF_in _ _ _ _ _ (by omega) (by omega)]
    rw [show arrayBase btn + 2 * k +
        (arrayBase btn + 2 * (i + 1) + t - (arrayBase btn + 2 * (k + 1)))
        = arrayBase btn + 2 * i + t from by omega]
    rw [unpackBTC, hsub, writeList_away _ _ _ _ (Or.inl (by omega))]
  rw [get2byte]
  have h0 : insertCellPage btn k cell (arrayBase btn + 2 * (i + 1))
      = btn.pageData (arrayBase btn + 2 * i) := hread 0 (by omega)
  have h1 := hread 1 (by omega)
  rw [h0, h1, entryAt, get2byte]

/-- C5: on a well-formed node (cell offset array ending at free_offset,
uint16 fields in range) with position k at most n_cells and room for the
cell plus its 2-byte array entry, insertCell returns OK and has exactly
the claimed effect: cells_offset drops by size_of(cell) and the
serialised cell bytes sit at the new cells_offset; the offset array
entries at positions k..n_cells-1 each move one slot up; entry k holds
the new cell offset; n_cells grows by 1 and free_offset by 2. -/
theorem insertCell_spec (btn : BTreeNode) (k : Nat) (cell : BTreeCell)
    (hk : k ≤ btn.n_cells)
    (hco : btn.cells_offset < 65536)
    (hfo : btn.free_offset = arrayBase btn + 2 * btn.n_cells)
    (hfit : btn.free_offset + getCellSize cell + 2 ≤ btn.cells_offset) :
    (chidb_Btree_insertCell btn k cell).1 = RC.OK ∧
    (chidb_Btree_insertCell btn k cell).2.cells_offset
      = btn.cells_offset - getCellSize cell ∧
    (∀ i, i < (cellBytes cell).length →
      (chidb_Btree_insertCell btn k cell).2.pageData
        (btn.cells_offset - getCellSize cell + i) = (cellBytes cell).getD i 0) ∧
    (∀ i, i < btn.n_cells → k ≤ i →
      entryAt (chidb_Btree_insertCell btn k cell).2 (i + 1) = entryAt btn i) ∧
    entryAt (chidb_Btree_insertCell btn k cell).2 k
      = btn.cells_offset - getCellSize cell ∧
    (chidb_Btree_insertCell btn k cell).2.n_cells = btn.n_cells + 1 ∧
    (chidb_Btree_insertCell btn k cell).2.free_offset = btn.free_offset + 2 := by
  obtain ⟨a1, a2, a3, a4, a5⟩ := insertCell_partial btn k cell hk hco hfo hfit
  have heq : chidb_Btree_insertCell btn k cell = (RC.OK, insertCellNode btn k cell) := by
    unfold chidb_Btree_insertCell
    rw [if_neg (by omega)]
  refine ⟨a1, a2, ?_, ?_, a5, a3, a4⟩
  · intro i hi
    rw [heq]
    exact insertCell_serialized btn k cell hk hco hfo hfit i hi
  · intro i hin hki
    rw [heq]
    exact insertCell_shift btn k cell hco hfo hfit i hin hki

/-- Witness for C5: inserting a three-byte-payload table-leaf cell at
position 0 of a fresh empty table leaf on page 2 (page size 1024). -/
theorem insertCell_spec_witness :
    (chidb_Btree_insertCell (initEmptyBtn 2 PGTYPE_TABLE_LEAF 1024) 0
        (.tableLeaf 7 3 [65, 66, 67])).1 = RC.OK ∧
    (chidb_Btree_insertCell (initEmptyBtn 2 PGTYPE_TABLE_LEAF 1024) 0
        (.tableLeaf 7 3 [65, 66, 67])).2.cells_offset = 1013 ∧
    (chidb_Btree_insertCell (initEmptyBtn 2 PGTYPE_TABLE_LEAF 1024) 0
        (.tableLeaf 7 3 [65, 66, 67])).2.n_cells = 1 ∧
    (chidb_Btree_insertCell (initEmptyBtn 2 PGTYPE_TABLE_LEAF 1024) 0
        (.tableLeaf 7 3 [65, 66, 67])).2.free_offset = 10 ∧
    entryAt (chidb_Btree_insertCell (initEmptyBtn 2 PGTYPE_TABLE_LEAF 1024) 0
        (.tableLeaf 7 3 [65, 66, 67])).2 0 = 1013 ∧
    (∀ i, i < 11 →
      (chidb_Btree_insertCell (initEmptyBtn 2 PGTYPE_TABLE_LEAF 1024) 0
        (.tableLeaf 7 3 [65, 66, 67])).2.pageData (1013 + i)
        = (cellBytes (.tableLeaf 7 3 [65, 66, 67])).getD i 0) := by
  have h := insertCell_spec (initEmptyBtn 2 PGTYPE_TABLE_LEAF 1024) 0
    (.tableLeaf 7 3 [65, 66, 67]) (by decide) (by decide) (by decide) (by decide)
  exact ⟨h.1, h.2.1, h.2.2.2.2.2.1, h.2.2.2.2.2.2, h.2.2.2.2.1,
    fun i hi => h.2.2.1 i (by simpa [cellBytes, varintBytes] using hi)⟩

/-- C6: insertCell with a position strictly greater than n_cells returns
CELLNO and leaves the node — fields and page bytes — unchanged. -/
theorem insertCell_cellno (btn : BTreeNode) (k : Nat) (cell : BTreeCell)
    (h : btn.n_cells < k) :
    chidb_Btree_insertCell btn k cell = (RC.ECELLNO, btn) := by
  unfold chidb_Btree_insertCell
  rw [if_pos (by omega)]

/-- Witness for C6: position n_cells + 1 = 1 on an empty node yields
CELLNO with the node returned exactly as passed. -/
theorem insertCell_cellno_witness :
    chidb_Btree_insertCell (initEmptyBtn 1 PGTYPE_TABLE_LEAF 1024) 1 (.indexLeaf 4 4)
      = (RC.ECELLNO, initEmptyBtn 1 PGTYPE_TABLE_LEAF 1024) :=
  insertCell_cellno (initEmptyBtn 1 PGTYPE_TABLE_LEAF 1024) 1 (.indexLeaf 4 4) (by decide)

/-! ## Header verification (claim C7) -/

theorem invalidHeaderB_false_iff (buf : Nat → Nat) :
    invalidHeaderB buf = false ↔ specHeaderOk buf := by
  simp [invalidHeaderB, magicB, specHeaderOk, Bool.or_eq_false_iff,
    Bool.and_eq_true, bne_eq_false_iff_eq, Bool.not_eq_true', and_assoc]

/-- C7: verifyHeader returns OK exactly when every required field
matches the canonical values; any mismatch yields CORRUPT_HEADER; the
bytes of the unchecked words at offsets 24, 40 and 60 never affect the
result; and on a readable file whose header fails the check, open
surfaces CORRUPT_HEADER. -/
theorem verifyHeader_spec (buf : Nat → Nat) (file : List Nat) :
    (verifyHeader buf = RC.OK ↔ specHeaderOk buf) ∧
    (¬ specHeaderOk buf → verifyHeader buf = RC.ECORRUPTHEADER) ∧
    (∀ j x, j = 24 ∨ j = 25 ∨ j = 26 ∨ j = 27 ∨ j = 40 ∨ j = 41 ∨ j = 42 ∨
      j = 43 ∨ j = 60 ∨ j = 61 ∨ j = 62 ∨ j = 63 →
      verifyHeader (setByte buf j x) = verifyHeader buf) ∧
    (100 ≤ file.length → ¬ specHeaderOk (fun i => file.getD i 0) →
      (chidb_Btree_open file).1 = RC.ECORRUPTHEADER) := by
  have hvh : ∀ g : Nat → Nat, verifyHeader g = RC.OK ↔ specHeaderOk g := by
    intro g
    rw [verifyHeader]
    cases h : invalidHeaderB g
    · simpa using (invalidHeaderB_false_iff g).mp h
    · simp only [if_pos rfl]
      constructor
      · intro hc
        exact absurd hc (by simp)
      · intro hs
        have hfalse := (invalidHeaderB_false_iff g).mpr hs
        rw [h] at hfalse
        exact absurd hfalse (by simp)
  refine ⟨hvh buf, ?_, ?_, ?_⟩
  · intro hns
    rw [verifyHeader]
    cases h : invalidHeaderB buf
    · exact absurd ((invalidHeaderB_false_iff buf).mp h) hns
    · rfl
  · intro j x hj
    rcases hj with rfl | rfl | rfl | rfl | rfl | rfl | rfl | rfl | rfl | rfl | rfl | rfl <;>
      simp [verifyHeader, invalidHeaderB, magicB, get4byte, setByte]
  · intro hlen hns
    have h1 : ¬ verifyHeader (fun i => file.getD i 0) = RC.OK := by
      intro hc
      exact hns ((hvh _).mp hc)
    rw [chidb_Btree_open, if_neg (by omega), if_neg h1]

set_option maxRecDepth 100000 in
/-- Witness for C7: a freshly created file with one byte of the magic
flipped fails verification and open reports CORRUPT_HEADER on it. -/
theorem verifyHeader_spec_witness :
    (chidb_Btree_open flippedMagicFile).1 = RC.ECORRUPTHEADER ∧
    verifyHeader (fun i => flippedMagicFile.getD i 0) = RC.ECORRUPTHEADER := by
  have h := verifyHeader_spec (fun i => flippedMagicFile.getD i 0) flippedMagicFile
  refine ⟨h.2.2.2 ?_ ?_, h.2.1 ?_⟩
  · simp [flippedMagicFile]
  · decide
  · decide

/-! ## Opening a fresh database (claim C8) -/

/-- C8: open on a file whose header cannot be read (here the empty
file) returns OK and produces a one-page 1024-byte file whose first 100
bytes verify: the magic with its terminating zero, page size bytes 4 0
at offsets 16-17, byte 18 = 1, byte 21 = 64, bytes 22-23 = 32 32, and
whose page-1 node header at byte 100 is an empty TABLE_LEAF: tag 13,
n_cells 0. -/
theorem open_create_spec :
    chidb_Btree_open [] = (RC.OK, (List.range 1024).map openPage1, 1024) ∧
    ((List.range 1024).map openPage1).length = 1024 ∧
    (verifyHeader openPage1 = RC.OK ∧
     openPage1 0 = 83 ∧ openPage1 1 = 81 ∧ openPage1 2 = 76 ∧ openPage1 3 = 105 ∧
     openPage1 4 = 116 ∧ openPage1 5 = 101 ∧ openPage1 6 = 32 ∧ openPage1 7 = 102 ∧
     openPage1 8 = 111 ∧ openPage1 9 = 114 ∧ openPage1 10 = 109 ∧ openPage1 11 = 97 ∧
     openPage1 12 = 116 ∧ openPage1 13 = 32 ∧ openPage1 14 = 51 ∧ openPage1 15 = 0 ∧
     openPage1 16 = 4 ∧ openPage1 17 = 0 ∧ openPage1 18 = 1 ∧ openPage1 21 = 64 ∧
     openPage1 22 = 32 ∧ openPage1 23 = 32 ∧
     openPage1 100 = PGTYPE_TABLE_LEAF ∧ get2byte openPage1 104 = 0) := by
  refine ⟨rfl, by simp, by decide⟩

/-! ## Search behaviour (claims C1, C2, C3, C10) -/

/-- C10: on a tree whose root node has no cells, find returns NOT_FOUND
(the code of the helper nodeBTCArray returns that code on an empty node,
not the EEMPTY its comment names) and the loaded root is released before
returning: the event log is exactly one load of the root followed by one
release of it. -/
theorem find_empty_root (db : List (Nat → Nat)) (root key fuel : Nat) (p : Nat → Nat)
    (hread : readPage db root = some p)
    (hempty : (packBTN p root).n_cells = 0) :
    chidb_Btree_find db root key (fuel + 1)
      = some (RC.ENOTFOUND, none, [Ev.load root, Ev.free root]) := by
  simp [chidb_Btree_find, findLoop, hread, hempty]

/-- Witness for C10: the freshly created database has an empty root on
page 1; searching any key, here 7, returns NOT_FOUND with the load/free
pair. -/
theorem find_empty_root_witness :
    chidb_Btree_find [openPage1] 1 7 1
      = some (RC.ENOTFOUND, none, [Ev.load 1, Ev.free 1]) :=
  find_empty_root [openPage1] 1 7 0 openPage1 rfl (by decide)

/-- C1 (code bug): on the freshly created database, insert_in_table of
key 1 with the ten payload bytes of "Hard Drive" returns OK — the
chidb_Btree_insert body is the bare statement return CHIDB_OK — while
writing nothing, and the subsequent find of key 1 returns NOT_FOUND
instead of the payload the claim promises. -/
theorem insert_stub_fresh_db :
    chidb_Btree_insertInTable [openPage1] 1 1 hardDrive 10 = (RC.OK, [openPage1]) ∧
    chidb_Btree_find [openPage1] 1 1 1
      = some (RC.ENOTFOUND, none, [Ev.load 1, Ev.free 1]) ∧
    RC.ENOTFOUND ≠ RC.OK :=
  ⟨rfl, by decide, by decide⟩

/-- C2 (code bug): on a database whose table already holds key 1 (find
proves the key is present and returns its payload), insert_in_table of
key 1 returns OK, not the DUPLICATE the claim requires; the file is
left byte-identical only because the unimplemented insert writes
nothing at all. -/
theorem insert_duplicate_stub :
    chidb_Btree_find dbWithKey1 1 1 3
      = some (RC.OK, some (hardDrive, 10), [Ev.load 1, Ev.free 1]) ∧
    chidb_Btree_insertInTable dbWithKey1 1 1 hardDrive 10 = (RC.OK, dbWithKey1) ∧
    RC.OK ≠ RC.EDUPLICATE :=
  ⟨by decide, rfl, by decide⟩

/-- C3 (code bug): with the table of keys 10, 20, 30 rooted at page 1
(key 20 carrying the payload 66 66, as the first conjunct proves) and
the index of (30,10), (50,20), (70,30) rooted at page 2, find on the
index root for keyIdx 50 matches the cell, replaces the key by keyPk =
20 and restarts from nroot — the index root, not the table root — so
the restarted descent searches the index tree for 20 and returns
NOT_FOUND instead of the table payload at key 20. -/
theorem find_index_restart_same_root :
    chidb_Btree_find dbTableIndex 1 20 5
      = some (RC.OK, some ([66, 66], 2), [Ev.load 1, Ev.free 1]) ∧
    chidb_Btree_find dbTableIndex 2 50 5
      = some (RC.ENOTFOUND, none,
          [Ev.load 2, Ev.free 2, Ev.load 2, Ev.free 2]) ∧
    RC.ENOTFOUND ≠ RC.OK :=
  ⟨by decide, by decide, by decide⟩

/-- C4 (code bug): getCellSize adds the first union slot for every cell
whose type has a bit in common with FLAG_LEAF or FLAG_TABLE (mask 13):
for a table-leaf cell this is the intended header plus data_size, and
for index-internal the fixed 12 — but a table-internal cell of
child_page 7 yields 8 + 7 and an index-leaf cell of keyPk 3 yields
8 + 3, not the fixed constants the claim states. -/
theorem getCellSize_eval :
    getCellSize (.tableLeaf 1 10 hardDrive) = 8 + 10 ∧
    getCellSize (.indexInternal 8 9 6) = 12 ∧
    getCellSize (.tableInternal 5 7) = 8 + 7 ∧
    getCellSize (.indexLeaf 9 3) = 8 + 3 := by
  decide

end ChidbBtree
